import Mathlib

/-!
Verification development for the Banxico curve-bootstrapping repository.

The embedding translates `src/instruments/bootstrap.py` and the per-date
orchestration loop of `src/instruments/rates_to_curves.py` into Lean.
Floating-point numbers are modelled as exact rationals (for data cells and
tenors, which are decimal literals) and real numbers (for discount factors,
which flow through `exp`/`log`); `scipy.optimize.brentq` is an external
library routine and is therefore a parameter (`brentq`) of every definition
that calls it.  Pandas NaN cells are modelled as `Option` (`none` = NaN).
-/

namespace Banxico

/-- One instrument row of the per-date input frame, after the numeric
coercion of lines 125-128 of `bootstrap.py`: `tenor_days` is numeric, the
three price/coupon columns are numeric-or-NaN (`none` models NaN). -/
structure Row where
  type : String
  tenor_days : ℚ
  clean_price : Option ℚ
  dirty_price : Option ℚ
  coupon : Option ℚ
deriving DecidableEq

/-- Errors raised by the bootstrap.  Each constructor corresponds to one
`raise` site in `bootstrap.py` (`ValueError` with the given message), except
`nanCoupon`, which marks the one spot (`float(r["coupon"])` on a NaN coupon
of a `fixed_bond` row) where the source would silently propagate an IEEE NaN:
that path is outside the real-number model and no claim exercises it. -/
inductive BErr where
  | missingPrice
  | missingOvernightRate
  | missingAnchorRate
  | invalidPillars
  | unknownInstrumentType (t : String)
  | indexError
  | nanCoupon
deriving DecidableEq

/-- Python dict assignment `d[k] = v`: replace the value when the key is
present, otherwise append (insertion order is preserved, as in Python). -/
def dictSet (d : List (ℚ × ℝ)) (k : ℚ) (v : ℝ) : List (ℚ × ℝ) :=
  if d.any (fun p => p.1 == k) then
    d.map (fun p => if p.1 == k then (k, v) else p)
  else d ++ [(k, v)]

/-- Python dict lookup `d[k]` with an (unreachable) default. -/
def dictGetD (d : List (ℚ × ℝ)) (k : ℚ) (dflt : ℝ) : ℝ :=
  match d.find? (fun p => p.1 == k) with
  | some p => p.2
  | none => dflt

/-- Python `k in d` for the pillar dict. -/
def dictHasKey (d : List (ℚ × ℝ)) (k : ℚ) : Bool :=
  d.any (fun p => p.1 == k)

/-- Python `max(d.keys())`; the default 0 is unreachable because every
pillar dict in the driver contains the tenor-0 pillar. -/
def maxKeyQ (d : List (ℚ × ℝ)) : ℚ :=
  ((d.map Prod.fst).max?).getD 0

/-- Python `int(x)` on a float: truncation toward zero. -/
def pyInt (q : ℚ) : ℤ :=
  if q < 0 then Int.ceil q else Int.floor q

/-- Round a real number to the nearest integer, ties to the even neighbour
(the rounding used by Python's built-in `round`). -/
noncomputable def roundHalfEven (x : ℝ) : ℤ :=
  if x - Int.floor x < 1/2 then Int.floor x
  else if 1/2 < x - Int.floor x then Int.floor x + 1
  else if Even (Int.floor x) then Int.floor x else Int.floor x + 1

/-- Python `round(x, 2)`: round half-to-even at two decimal places. -/
noncomputable def pyRound2 (x : ℝ) : ℝ :=
  (roundHalfEven (x * 100) : ℝ) / 100

/-- Helper `_pick_price` of `bootstrap.py`: prefer dirty, else clean,
`none` when neither is present (the source raises then). -/
def pick_price (r : Row) : Option ℚ :=
  match r.dirty_price with
  | some dp => some dp
  | none => r.clean_price

/-- Helper `_normalize_spread_pct`: NaN means zero spread; magnitudes above
5 are treated as basis points and divided by 100. -/
def normalize_spread_pct (sRaw : Option ℚ) : ℚ :=
  match sRaw with
  | none => 0
  | some s => if 5 < |s| then s / 100 else s

/-- Pillar pairs sorted by tenor, mirroring `xs = sorted(pillar_points.keys())`
with `ys` carried alongside (dict keys are unique, so sorting the pairs by
key is the same as sorting the keys and looking each value up). -/
def sortPillars (d : List (ℚ × ℝ)) : List (ℚ × ℝ) :=
  List.insertionSort (fun a b => a.1 ≤ b.1) d

/-- Np.isclose with its default tolerances (`rtol=1e-5`, `atol=1e-8`),
used for the final-coupon-at-maturity test of the fixed-bond branch. -/
def isClose (a b : ℚ) : Prop :=
  |a - b| ≤ 1e-8 + 1e-5 * |b|

instance : DecidablePred fun p : ℚ × ℚ => isClose p.1 p.2 := by
  intro p; unfold isClose; infer_instance

instance (a b : ℚ) : Decidable (isClose a b) := by
  unfold isClose; infer_instance

/-- Log-linear discount-factor function of `_build_loglinear_df_func`,
expressed over the key-sorted pillar list: interior log-linear interpolation,
left extrapolation with the first slope, right extrapolation with the last
slope clamped to at most `-1e-12` (never upward).  The empty case returns a
junk value (the source raises `IndexError` on an empty pillar dict, which
never happens in the driver: the tenor-0 pillar is always present). -/
noncomputable def dfAtSorted : List (ℚ × ℝ) → ℝ → ℝ
  | [], _ => 0
  | [(_, y0)], _ => y0
  | (x0, y0) :: p1 :: rest, t =>
    let l := (x0, y0) :: p1 :: rest
    let pn := l.getLastD (0, 0)
    let pm := l.dropLast.getLastD (0, 0)
    if t ≤ (x0 : ℝ) then
      Real.exp (Real.log y0 +
        (Real.log p1.2 - Real.log y0) / ((p1.1 : ℝ) - (x0 : ℝ)) * (t - (x0 : ℝ)))
    else if (pn.1 : ℝ) ≤ t then
      Real.exp (Real.log pn.2 +
        min ((Real.log pn.2 - Real.log pm.2) / ((pn.1 : ℝ) - (pm.1 : ℝ))) (-1e-12) *
          (t - (pn.1 : ℝ)))
    else
      let j := min (l.countP (fun p => decide ((p.1 : ℝ) < t)) - 1) (l.length - 2)
      let pj := l.getD j (0, 0)
      let pj1 := l.getD (j + 1) (0, 0)
      let w := (t - (pj.1 : ℝ)) / ((pj1.1 : ℝ) - (pj.1 : ℝ))
      Real.exp (Real.log pj.2 * (1 - w) + Real.log pj1.2 * w)

/-- Discount-factor function `df(t)` returned by `_build_loglinear_df_func`
for a pillar dict (the positivity check of the builder is performed at the
call sites of the driver, mirroring the `raise` on `np.any(ys <= 0)`). -/
noncomputable def dfAt (d : List (ℚ × ℝ)) (t : ℝ) : ℝ :=
  dfAtSorted (sortPillars d) t

/-- Present value of the cashflow schedule as a function of the candidate
`DF(T)`, inner function `pv_given_dfT` of `_solve_df_T_loglinear_generic`:
cashflows strictly before `T` (tolerance `1e-12`) are discounted by
log-linear interpolation between `DF(S)` and the candidate, the rest by the
candidate itself; non-positive candidates short-circuit to `pre_known_sum`. -/
noncomputable def pv_given_dfT (preKnownSum dfS S T : ℝ)
    (futureTimes futureAmounts : List ℝ) (dfT : ℝ) : ℝ :=
  if dfT ≤ 0 then preKnownSum
  else
    (futureTimes.zip futureAmounts).foldl
      (fun pv ta =>
        pv + ta.2 *
          (if ta.1 < T - 1e-12 then
            Real.exp ((1 - (ta.1 - S) / (T - S)) * Real.log dfS +
              (ta.1 - S) / (T - S) * Real.log dfT)
          else dfT))
      preKnownSum

/-- Generic implied-DF solver `_solve_df_T_loglinear_generic`.  The scipy
root finder `brentq` is an external routine, taken as a parameter; the
degenerate call `T <= S + 1e-12` returns `DF(S)` without touching it.  When
the bracket `[1e-14, DF(S)]` shows no sign change, the forward-flat fallback
backs `DF(T)` out of the final cashflow (`future_amounts[-1]`; an empty
amount list would be the source's `IndexError`). -/
noncomputable def solve_df_T_loglinear_generic
    (brentq : (ℝ → ℝ) → ℝ → ℝ → ℝ)
    (price preKnownSum dfS S T : ℝ)
    (futureTimes futureAmounts : List ℝ) : Except BErr ℝ :=
  if T ≤ S + 1e-12 then .ok dfS
  else
    let target := price
    let lo : ℝ := 1e-14
    let hi : ℝ := dfS
    let fLo := pv_given_dfT preKnownSum dfS S T futureTimes futureAmounts lo - target
    let fHi := pv_given_dfT preKnownSum dfS S T futureTimes futureAmounts hi - target
    if 0 < fLo * fHi then
      let mff := min (-1e-12) (Real.log dfS / max S 1)
      let sumUnkFf :=
        (futureTimes.zip futureAmounts).foldl
          (fun acc ta => acc + ta.2 * (dfS * Real.exp (mff * (ta.1 - S)))) 0
      match futureAmounts.getLast? with
      | none => .error .indexError
      | some aLast => .ok (max 1e-14 (min ((target - preKnownSum - sumUnkFf) / aLast) hi))
    else
      .ok (brentq
        (fun x => pv_given_dfT preKnownSum dfS S T futureTimes futureAmounts x - target)
        lo hi)

/-- Result of the helper `_frn_28day_coupon_params`: period count `k`,
days accrued `d`, days to the next payment `rem`, first coupon `c1`,
regular coupon `c`. -/
structure FrnParams where
  k : ℤ
  d : ℚ
  rem : ℚ
  c1 : ℝ
  c : ℝ

/-- Helper `_frn_28day_coupon_params` of the driver: 28-day coupon
parameters for the BONDES floating-rate notes, built from the cached
overnight rate `rPct` (percent) and the spread `sPct` (percent). -/
noncomputable def frn_28day_coupon_params (T : ℚ) (rPct sPct : ℝ) : FrnParams :=
  let step : ℚ := 28
  let k : ℤ := if 0 < T then Int.ceil (T / step) else 0
  if k = 0 then ⟨0, 0, 0, 0, 0⟩
  else
    let rem := T - step * ((k : ℚ) - 1)
    let d := if 0 < rem then step - rem else 0
    let tcDev : ℝ :=
      if d ≤ 0 then 0
      else ((1 + rPct / 36000) ^ ((d : ℝ)) - 1) * 36000 / (d : ℝ)
    let rEff := rPct + sPct
    let tc1 := ((1 + tcDev / 36000) * (1 + rEff / 36000) ^ (((step - d : ℚ) : ℝ)) - 1) *
      36000 / (step : ℝ)
    let tc := ((1 + rEff / 36000) ^ ((step : ℝ)) - 1) * 36000 / (step : ℝ)
    ⟨k, d, rem, 100 * (step : ℝ) * tc1 / 36000, 100 * (step : ℝ) * tc / 36000⟩

/-- Running state of one per-date bootstrap: the pillar dict (seeded with
the tenor-0 pillar) and the cached overnight rate in percent. -/
structure BState where
  pillars : List (ℚ × ℝ)
  onRatePct : Option ℝ
deriving Inhabited

/-- Helper `_ensure_on_rate_pct` of the driver: return the cached overnight
rate, or derive and cache it from the 1-day pillar, or fail (the source's
`ValueError` asking for an `overnight_rate` row before BONDES). -/
noncomputable def ensure_on_rate_pct (dcc : ℚ) (s : BState) : Except BErr (ℝ × BState) :=
  match s.onRatePct with
  | some v => .ok (v, s)
  | none =>
    if dictHasKey s.pillars 1 then
      let df1 := dictGetD s.pillars 1 0
      let rv := pyRound2 (((1 / df1) - 1) * (dcc : ℝ) / 1 * 100)
      .ok (rv, ⟨s.pillars, some rv⟩)
    else .error .missingAnchorRate

/-- Python `str.strip`: drop whitespace from both ends. -/
def pyStrip (s : String) : String :=
  String.mk (((s.data.dropWhile Char.isWhitespace).reverse.dropWhile
    Char.isWhitespace).reverse)

/-- Python `str.lower` (over the ASCII range of the instrument tags). -/
def pyLower (s : String) : String :=
  String.mk (s.data.map Char.toLower)

/-- Python `str(x).strip().lower()` applied to the `type` cell. -/
def normType (r : Row) : String :=
  pyLower (pyStrip r.type)

/-- The three BONDES floating-rate-note type tags. -/
def frnTypes : List String :=
  ["floating_bondes_d", "floating_bondes_f", "floating_bondes_g"]

/-- Body of the main `for` loop of `bootstrap_from_curve_df` for one row.
`hasON` is the loop's per-row guard `"overnight_rate" not in
df["type"].to_list()` (constant across the loop since the frame is fixed);
when it fails every row is skipped.  `brentq` is the scipy root finder,
abstracted as a parameter. -/
noncomputable def processRow (brentq : (ℝ → ℝ) → ℝ → ℝ → ℝ) (dcc : ℚ)
    (hasON : Bool) (s : BState) (r : Row) : Except BErr BState :=
  let instType := normType r
  let T := r.tenor_days
  if hasON = false then .ok s
  else if instType = "overnight_rate" then
    match r.dirty_price with
    | none => .error .missingOvernightRate
    | some rate0 =>
      let rate := if 1 < rate0 then rate0 / 100 else rate0
      let df1d : ℝ := 1 / (1 + (rate : ℝ) * (1 / (dcc : ℝ)))
      .ok ⟨dictSet s.pillars T df1d, some (pyRound2 ((rate : ℝ) * 100))⟩
  else if instType = "zero_coupon" then
    match pick_price r with
    | none => .error .missingPrice
    | some price => .ok ⟨dictSet s.pillars T ((price : ℝ) / 10), s.onRatePct⟩
  else if instType = "fixed_bond" then
    match pick_price r with
    | none => .error .missingPrice
    | some price =>
      match r.coupon with
      | none => .error .nanCoupon
      | some cq =>
        let cRate := cq / 100
        let step : ℚ := 182
        let k : ℤ := Int.floor (T / step)
        let preT0 : List ℚ := (List.range k.toNat).map (fun i => step * ((i : ℚ) + 1))
        let preT := if preT0 ≠ [] ∧ isClose (preT0.getLastD 0) T then preT0.dropLast else preT0
        let lastCpnTime := preT.getLastD 0
        let alpha := step / dcc
        let alphaT := (T - lastCpnTime) / dcc
        let cAmt := cRate * alpha * 100
        let finalCf := 100 + cRate * alphaT * 100
        if ∃ p ∈ s.pillars, p.2 ≤ 0 then .error .invalidPillars
        else
          let S := maxKeyQ s.pillars
          let preKnownSum : ℝ :=
            (preT.filter (fun t => t ≤ S + 1e-12)).foldl
              (fun acc t => acc + (cAmt : ℝ) * dfAt s.pillars (t : ℝ)) 0
          let futT0 := preT.filter (fun t => ¬ t ≤ S + 1e-12)
          let futTimes := futT0 ++ [T]
          let futAmts : List ℝ := futT0.map (fun _ => (cAmt : ℝ)) ++ [(finalCf : ℝ)]
          let dfTRes : Except BErr ℝ :=
            if T ≤ S + 1e-12 then .ok (dfAt s.pillars (T : ℝ))
            else
              solve_df_T_loglinear_generic brentq (price : ℝ) preKnownSum
                (dfAt s.pillars (S : ℝ)) (S : ℝ) (T : ℝ)
                (futTimes.map (fun q => (q : ℝ))) futAmts
          match dfTRes with
          | .error e => .error e
          | .ok dfT0 =>
            let dfT := max 1e-12 (min dfT0 (dfAt s.pillars (S : ℝ)))
            .ok ⟨dictSet s.pillars T dfT, s.onRatePct⟩
  else if instType ∈ frnTypes then
    match ensure_on_rate_pct dcc s with
    | .error e => .error e
    | .ok (rPct, s1) =>
      let sPct := normalize_spread_pct r.coupon
      let prm := frn_28day_coupon_params T rPct (sPct : ℝ)
      if prm.k ≤ 0 then
        .ok ⟨dictSet s1.pillars T (dictGetD s1.pillars (maxKeyQ s1.pillars) 0), s1.onRatePct⟩
      else
        let tcDev : ℝ :=
          if prm.d ≤ 0 then 0
          else ((1 + rPct / 36000) ^ ((prm.d : ℝ)) - 1) * 36000 / (prm.d : ℝ)
        let accrued := 100 * (prm.d : ℝ) * tcDev / 36000
        let priceE : Except BErr ℝ :=
          match r.dirty_price with
          | some pd => .ok (pd : ℝ)
          | none =>
            match r.clean_price with
            | some pc => .ok ((pc : ℝ) + accrued)
            | none => .error .missingPrice
        match priceE with
        | .error e => .error e
        | .ok price =>
          let step : ℚ := 28
          let payT0 : List ℚ := (List.range (prm.k.toNat - 1)).map
            (fun j => prm.rem + step * (j : ℚ))
          let payA0 : List ℝ :=
            if 0 < payT0.length then [prm.c1] ++ List.replicate (payT0.length - 1) prm.c
            else []
          let lastCouponAtT : ℝ := if 0 < payT0.length then prm.c else prm.c1
          let payTimes := payT0 ++ [T]
          let payAmts := payA0 ++ [100 + lastCouponAtT]
          if ∃ p ∈ s1.pillars, p.2 ≤ 0 then .error .invalidPillars
          else
            let S := maxKeyQ s1.pillars
            let preKnownSum : ℝ :=
              ((payTimes.zip payAmts).filter (fun ta => ta.1 ≤ S + 1e-12)).foldl
                (fun acc ta => acc + ta.2 * dfAt s1.pillars (ta.1 : ℝ)) 0
            let fut := (payTimes.zip payAmts).filter (fun ta => ¬ ta.1 ≤ S + 1e-12)
            let dfTRes : Except BErr ℝ :=
              if T ≤ S + 1e-12 then .ok (dfAt s1.pillars (T : ℝ))
              else
                solve_df_T_loglinear_generic brentq price preKnownSum
                  (dfAt s1.pillars (S : ℝ)) (S : ℝ) (T : ℝ)
                  (fut.map (fun ta => (ta.1 : ℝ))) (fut.map Prod.snd)
            match dfTRes with
            | .error e => .error e
            | .ok dfT0 =>
              let dfT := max 1e-12 (min dfT0 (dfAt s1.pillars (S : ℝ)))
              .ok ⟨dictSet s1.pillars T dfT, s1.onRatePct⟩
  else .error (.unknownInstrumentType instType)

/-- The sort `df.sort_values("tenor_days")` of the driver, modelled as a
stable sort by tenor. -/
def sortRows (rows : List Row) : List Row :=
  List.insertionSort (fun a b => a.tenor_days ≤ b.tenor_days) rows

/-- The `for _, r in df.iterrows()` loop with Python exception semantics:
process rows left to right, aborting at the first raised error. -/
def runRows (step : BState → Row → Except BErr BState) :
    BState → List Row → Except BErr BState
  | s, [] => .ok s
  | s, r :: rest =>
    match step s r with
    | .ok s' => runRows step s' rest
    | .error e => .error e

/-- Initial driver state: `pillars = {0.0: 1.0}`, no cached overnight rate. -/
def initState : BState :=
  ⟨[(0, 1)], none⟩

/-- Output construction of `bootstrap_from_curve_df`: pillars with positive
tenor, as `(days_to_maturity, zero_rate)` rows with the money-market simple
Act/360 zero rate in percent, sorted (stably) by integer day count. -/
noncomputable def zeroCurve (dcc : ℚ) (s : BState) : List (ℤ × ℝ) :=
  let tenors := List.insertionSort (fun a b => a ≤ b) (s.pillars.map Prod.fst)
  let pos := tenors.filter (fun t => 0 < t)
  let rows := pos.map (fun t =>
    (pyInt t, ((1 / dictGetD s.pillars t 0) - 1) * ((dcc : ℝ) / (t : ℝ)) * 100))
  List.insertionSort (fun a b => a.1 ≤ b.1) rows

/-- State reached by the main loop of `bootstrap_from_curve_df`: the frame
is sorted by tenor and the rows are processed in order from the seeded
state; the per-row guard checks the presence of an exact `"overnight_rate"`
tag in the frame's `type` column. -/
noncomputable def bootstrap_state (brentq : (ℝ → ℝ) → ℝ → ℝ → ℝ)
    (rows : List Row) (dcc : ℚ := 360) : Except BErr BState :=
  let sorted := sortRows rows
  let hasON := sorted.any (fun r => r.type == "overnight_rate")
  runRows (processRow brentq dcc hasON) initState sorted

/-- The per-date bootstrap `bootstrap_from_curve_df`: coerce and sort the
frame, run the instrument loop from the seeded state, then build the zero
curve.  Any raised error aborts the run with no output. -/
noncomputable def bootstrap_from_curve_df (brentq : (ℝ → ℝ) → ℝ → ℝ → ℝ)
    (rows : List Row) (dcc : ℚ := 360) : Except BErr (List (ℤ × ℝ)) :=
  match bootstrap_state brentq rows dcc with
  | .error e => .error e
  | .ok s => .ok (zeroCurve dcc s)

/-- One raw node row as read by the orchestrator
`boostrap_mbono_curve` of `rates_to_curves.py`, before its column remapping
(`tenor_days := days_to_maturity`, `coupon := current_coupon`). -/
structure RawRow where
  type : String
  days_to_maturity : ℚ
  clean_price : Option ℚ
  dirty_price : Option ℚ
  current_coupon : Option ℚ
deriving DecidableEq

/-- Column remapping performed per date group by the orchestrator. -/
def remapRow (r : RawRow) : Row :=
  ⟨r.type, r.days_to_maturity, r.clean_price, r.dirty_price, r.current_coupon⟩

/-- The per-date loop of the orchestrator `boostrap_mbono_curve` in
`rates_to_curves.py`, over the date groups produced by
`groupby("time_index")` (groups keyed by ascending distinct dates, rows in
original order).  A group with fewer than 5 rows is skipped; otherwise the
per-date bootstrap runs and its rows are tagged with the date and
concatenated.  Errors propagate (`raise e`).  The result is the long table
`final_df` of `(time_index, days_to_maturity, zero_rate)` rows; the
trailing groupby-pivot into per-date dictionaries is a reshape of this
table and carries the same rows. -/
noncomputable def boostrap_mbono_curve (brentq : (ℝ → ℝ) → ℝ → ℝ → ℝ)
    (groups : List (ℚ × List RawRow)) : Except BErr (List (ℚ × ℤ × ℝ)) :=
  runGroups brentq [] groups
where
  /-- Fold over the date groups, accumulating the concatenated output. -/
  runGroups (brentq : (ℝ → ℝ) → ℝ → ℝ → ℝ) (acc : List (ℚ × ℤ × ℝ)) :
      List (ℚ × List RawRow) → Except BErr (List (ℚ × ℤ × ℝ))
    | [] => .ok acc
    | g :: rest =>
      if g.2.length < 5 then runGroups brentq acc rest
      else
        match bootstrap_from_curve_df brentq (g.2.map remapRow) 360 with
        | .error e => .error e
        | .ok out => runGroups brentq (acc ++ out.map (fun p => (g.1, p.1, p.2))) rest

/-- A trivial stand-in for the external scipy root finder, used to
instantiate the `brentq` parameter in closed statements whose runs never
reach a root-finding call. -/
def zeroOracle : (ℝ → ℝ) → ℝ → ℝ → ℝ :=
  fun _ _ _ => 0

/-! Object-store model for the frame-effect claim: `bootstrap_from_curve_df`
mutates columns of a DataFrame object, so the Python heap is modelled
explicitly as a store of frames addressed by index.  A cell of a raw frame
is a number, a non-numeric text, or NaN; `pd.to_numeric(errors="coerce")`
maps text to NaN (numeric-literal strings, which pandas would parse, are
left outside the modelled cell domain) and NaN to NaN. -/

/-- One raw cell of an uncoerced DataFrame column. -/
inductive Cell where
  | num (q : ℚ)
  | text (s : String)
  | na
deriving DecidableEq

/-- Python `pd.to_numeric(cell, errors="coerce")` applied to one cell. -/
def toNumericCell : Cell → Cell
  | .num q => .num q
  | .text _ => .na
  | .na => .na

/-- One row of the caller's uncoerced frame. -/
structure PreRow where
  type : String
  tenor_days : Cell
  clean_price : Cell
  dirty_price : Cell
  coupon : Cell
deriving DecidableEq

/-- A DataFrame object: a list of rows. -/
abbrev Frame : Type := List PreRow

/-- The Python object store: frame objects addressed by allocation index. -/
abbrev Store : Type := List Frame

/-- Column assignment `df["tenor_days"] = pd.to_numeric(df["tenor_days"], ...)`. -/
def coerceTenorCol (f : Frame) : Frame :=
  f.map fun r => { r with tenor_days := toNumericCell r.tenor_days }

/-- Column assignment for `clean_price`. -/
def coerceCleanCol (f : Frame) : Frame :=
  f.map fun r => { r with clean_price := toNumericCell r.clean_price }

/-- Column assignment for `dirty_price`. -/
def coerceDirtyCol (f : Frame) : Frame :=
  f.map fun r => { r with dirty_price := toNumericCell r.dirty_price }

/-- Column assignment for `coupon`. -/
def coerceCouponCol (f : Frame) : Frame :=
  f.map fun r => { r with coupon := toNumericCell r.coupon }

/-- Ordering of raw tenor cells used by `sort_values("tenor_days")`
(NaN cells sort last, as in pandas). -/
def cellLeB : Cell → Cell → Bool
  | .num x, .num y => x ≤ y
  | .num _, _ => true
  | _, .num _ => false
  | _, _ => true

/-- The `df.sort_values("tenor_days")` step; it returns a fresh frame. -/
def sortFrame (f : Frame) : Frame :=
  List.insertionSort (fun a b => cellLeB a.tenor_days b.tenor_days = true) f

/-- CETES test row of the spec's round-trip property: a `zero_coupon` with
tenor 91 and clean price 97.5, no dirty price. -/
def cetes91 : Row :=
  ⟨"zero_coupon", 91, some 97.5, none, none⟩

/-- Overnight anchor row: tenor 1, rate 0.105 carried in `dirty_price`. -/
def onAnchor : Row :=
  ⟨"overnight_rate", 1, none, some 0.105, none⟩

/-- A row with an unrecognized instrument type. -/
def unknownRow : Row :=
  ⟨"unknown_family", 50, some 99, none, none⟩

/-- A second CETES row sharing tenor 91 with `cetes91` but a lower price,
used to exhibit order dependence on tied tenors. -/
def cetes91b : Row :=
  ⟨"zero_coupon", 91, some 95, none, none⟩

/-- A fixed-coupon MBONO row used to exercise the capping of the
`fixed_bond` branch: tenor 91 (below one coupon period, so the only cash
flow is the final one), dirty price 95, coupon 8 percent. -/
def mbono91 : Row :=
  ⟨"fixed_bond", 91, none, some 95, some 8⟩

/-- A BONDES F row used to exercise the capping of the FRN branch: tenor
28 (a single 28-day coupon period), dirty price 50, no spread. -/
def frn28 : Row :=
  ⟨"floating_bondes_f", 28, none, some 50, none⟩

/-- A raw CETES node row for the orchestrator (pre-remapping column names). -/
def rawCete : RawRow :=
  ⟨"zero_coupon", 91, some 97.5, none, none⟩

/-- Preprocessing prologue of `bootstrap_from_curve_df` (lines 124-129)
against the object store: `df = curve_df.copy()` allocates a fresh frame,
the four `pd.to_numeric` column assignments mutate that copy in place, and
`df = df.sort_values("tenor_days")` rebinds the local name to yet another
fresh frame.  Returns the final store and the index of the local `df`
object; the rest of the function only reads that object. -/
def bootstrap_preprocess (st : Store) (ref : Nat) : Store × Nat :=
  let df0 := st.getD ref []
  let st1 := st ++ [df0]
  let c := st.length
  let st2 := st1.set c (coerceTenorCol (st1.getD c []))
  let st3 := st2.set c (coerceCleanCol (st2.getD c []))
  let st4 := st3.set c (coerceDirtyCol (st3.getD c []))
  let st5 := st4.set c (coerceCouponCol (st4.getD c []))
  let sorted := sortFrame (st5.getD c [])
  (st5 ++ [sorted], st5.length)

instance : IsTotal Row (fun a b => a.tenor_days ≤ b.tenor_days) :=
  ⟨fun a b => le_total a.tenor_days b.tenor_days⟩

instance : IsTrans Row (fun a b => a.tenor_days ≤ b.tenor_days) :=
  ⟨fun _ _ _ h1 h2 => le_trans h1 h2⟩

instance : IsAntisymm Row (fun a b => a.tenor_days < b.tenor_days) :=
  ⟨fun _ _ h1 h2 => absurd (lt_trans h1 h2) (lt_irrefl _)⟩

instance : IsTotal (ℚ × ℝ) (fun a b => a.1 ≤ b.1) :=
  ⟨fun a b => le_total a.1 b.1⟩

instance : IsTrans (ℚ × ℝ) (fun a b => a.1 ≤ b.1) :=
  ⟨fun _ _ _ h1 h2 => le_trans h1 h2⟩

/-! Helper lemmas about the loop runner and the individual branches of the
row dispatch; these are shared by the claim theorems below. -/

theorem runRows_nil (f : BState → Row → Except BErr BState) (s : BState) :
    runRows f s [] = .ok s := rfl

theorem runRows_cons_ok {f : BState → Row → Except BErr BState} {s : BState}
    {r : Row} {s' : BState} (rest : List Row) (h : f s r = .ok s') :
    runRows f s (r :: rest) = runRows f s' rest := by
  simp [runRows, h]

theorem runRows_cons_error {f : BState → Row → Except BErr BState} {s : BState}
    {r : Row} {e : BErr} (rest : List Row) (h : f s r = .error e) :
    runRows f s (r :: rest) = .error e := by
  simp [runRows, h]

theorem processRow_skip (bq : (ℝ → ℝ) → ℝ → ℝ → ℝ) (dcc : ℚ) (s : BState) (r : Row) :
    processRow bq dcc false s r = .ok s := by
  simp [processRow]

theorem runRows_skip (bq : (ℝ → ℝ) → ℝ → ℝ → ℝ) (dcc : ℚ) (s : BState) :
    ∀ l : List Row, runRows (processRow bq dcc false) s l = .ok s := by
  intro l
  induction l generalizing s with
  | nil => rfl
  | cons r rest ih => rw [runRows_cons_ok rest (processRow_skip bq dcc s r)]; exact ih _

theorem processRow_overnight {r : Row} {q : ℚ} (bq : (ℝ → ℝ) → ℝ → ℝ → ℝ)
    (dcc : ℚ) (s : BState) (h : normType r = "overnight_rate")
    (hd : r.dirty_price = some q) (hq : ¬ 1 < q) :
    processRow bq dcc true s r =
      .ok ⟨dictSet s.pillars r.tenor_days (1 / (1 + (q : ℝ) * (1 / (dcc : ℝ)))),
        some (pyRound2 ((q : ℝ) * 100))⟩ := by
  simp [processRow, h, hd, hq]

theorem processRow_overnight_pct {r : Row} {q : ℚ} (bq : (ℝ → ℝ) → ℝ → ℝ → ℝ)
    (dcc : ℚ) (s : BState) (h : normType r = "overnight_rate")
    (hd : r.dirty_price = some q) (hq : 1 < q) :
    processRow bq dcc true s r =
      .ok ⟨dictSet s.pillars r.tenor_days (1 / (1 + ((q / 100 : ℚ) : ℝ) * (1 / (dcc : ℝ)))),
        some (pyRound2 (((q / 100 : ℚ) : ℝ) * 100))⟩ := by
  simp [processRow, h, hd, hq]

theorem processRow_zero_coupon {r : Row} {p : ℚ} (bq : (ℝ → ℝ) → ℝ → ℝ → ℝ)
    (dcc : ℚ) (s : BState) (h : normType r = "zero_coupon")
    (hp : pick_price r = some p) :
    processRow bq dcc true s r =
      .ok ⟨dictSet s.pillars r.tenor_days ((p : ℝ) / 10), s.onRatePct⟩ := by
  simp [processRow, h, hp]

theorem processRow_unknown {r : Row} (bq : (ℝ → ℝ) → ℝ → ℝ → ℝ)
    (dcc : ℚ) (s : BState)
    (h1 : normType r ≠ "overnight_rate") (h2 : normType r ≠ "zero_coupon")
    (h3 : normType r ≠ "fixed_bond") (h4 : normType r ∉ frnTypes) :
    processRow bq dcc true s r = .error (.unknownInstrumentType (normType r)) := by
  simp [processRow, h1, h2, h3, h4]

theorem pyRound2_ten_half (x : ℝ) (hx : x = 10.5) : pyRound2 x = 10.5 := by
  subst hx
  have h : (10.5 : ℝ) * 100 = 1050 := by norm_num
  rw [pyRound2, roundHalfEven, h]
  norm_num

/-- C4.  For every call to the implied-DF solver with a new maturity `T`
at most the latest pillar tenor `S` (within the `1e-12` tolerance), the
solver returns `DF(S)` unchanged as a success, for every root-finding
oracle — no root finding is performed and no error is raised. -/
theorem claim_C4_degenerate_solver_returns_dfS
    (bq : (ℝ → ℝ) → ℝ → ℝ → ℝ) (price preKnownSum dfS S T : ℝ)
    (futT futA : List ℝ) (h : T ≤ S + 1e-12) :
    solve_df_T_loglinear_generic bq price preKnownSum dfS S T futT futA = .ok dfS := by
  rw [solve_df_T_loglinear_generic, if_pos h]

/-- Witness for C4 at a concrete degenerate call (`T = S = 30`). -/
theorem claim_C4_witness :
    (30 : ℝ) ≤ 30 + 1e-12 ∧
      solve_df_T_loglinear_generic zeroOracle 99 0 0.9 30 30 [30] [100] = .ok 0.9 :=
  ⟨by norm_num,
    claim_C4_degenerate_solver_returns_dfS zeroOracle 99 0 0.9 30 30 [30] [100]
      (by norm_num)⟩

/-- C5.  A single-date input with no `overnight_rate` row is a no-op: the
per-row guard skips every instrument, the state stays at the seeded
tenor-0 pillar, no error is raised, and the output has zero rows. -/
theorem claim_C5_no_overnight_row_noop (bq : (ℝ → ℝ) → ℝ → ℝ → ℝ)
    (rows : List Row) (dcc : ℚ) (h : ∀ r ∈ rows, r.type ≠ "overnight_rate") :
    bootstrap_state bq rows dcc = .ok initState ∧
      bootstrap_from_curve_df bq rows dcc = .ok [] := by
  have hON : ((sortRows rows).any fun r => r.type == "overnight_rate") = false := by
    rw [List.any_eq_false]
    intro r hr
    have hmem : r ∈ rows := (List.perm_insertionSort _ rows).mem_iff.mp hr
    simpa using h r hmem
  have hstate : bootstrap_state bq rows dcc = .ok initState := by
    rw [bootstrap_state]
    simp only [hON]
    exact runRows_skip bq dcc initState (sortRows rows)
  refine ⟨hstate, ?_⟩
  rw [bootstrap_from_curve_df, hstate]
  simp [zeroCurve, initState, List.insertionSort, List.orderedInsert]

/-- Witness for C5: the lone CETES row input. -/
theorem claim_C5_witness :
    (∀ r ∈ [cetes91], r.type ≠ "overnight_rate") ∧
      bootstrap_from_curve_df zeroOracle [cetes91] 360 = .ok [] :=
  ⟨by decide, (claim_C5_no_overnight_row_noop zeroOracle [cetes91] 360 (by decide)).2⟩

theorem processRow_onAnchor (bq : (ℝ → ℝ) → ℝ → ℝ → ℝ) (s : BState) :
    processRow bq 360 true s onAnchor =
      .ok ⟨dictSet s.pillars 1 (1 / (1 + (0.105 : ℝ) / 360)), some (10.5 : ℝ)⟩ := by
  rw [processRow_overnight bq 360 s (by decide) rfl (by norm_num)]
  rw [pyRound2_ten_half _ (by push_cast; norm_num)]
  have hv : (1 : ℝ) / (1 + ((0.105 : ℚ) : ℝ) * (1 / ((360 : ℚ) : ℝ))) =
      1 / (1 + (0.105 : ℝ) / 360) := by
    push_cast
    norm_num
  rw [show onAnchor.tenor_days = (1 : ℚ) from rfl, hv]

theorem bootstrap_state_cetes_onAnchor :
    bootstrap_state zeroOracle [cetes91, onAnchor] 360 =
      .ok ⟨[(0, 1), (1, 1 / (1 + (0.105 : ℝ) / 360)), (91, (9.75 : ℝ))],
        some (10.5 : ℝ)⟩ := by
  have hs : sortRows [cetes91, onAnchor] = [onAnchor, cetes91] := by
    simp [sortRows, List.insertionSort, List.orderedInsert, cetes91, onAnchor]
  rw [bootstrap_state]
  simp only [hs]
  have hany : ([onAnchor, cetes91].any fun r => r.type == "overnight_rate") = true := by
    decide
  rw [hany]
  have h1 : processRow zeroOracle 360 true initState onAnchor =
      .ok ⟨[(0, 1), (1, 1 / (1 + (0.105 : ℝ) / 360))], some (10.5 : ℝ)⟩ := by
    rw [processRow_onAnchor]
    simp [initState, dictSet]
  rw [runRows_cons_ok _ h1]
  have h2 : processRow zeroOracle 360 true
      ⟨[(0, 1), (1, 1 / (1 + (0.105 : ℝ) / 360))], some (10.5 : ℝ)⟩ cetes91 =
      .ok ⟨[(0, 1), (1, 1 / (1 + (0.105 : ℝ) / 360)), (91, (9.75 : ℝ))],
        some (10.5 : ℝ)⟩ := by
    rw [processRow_zero_coupon zeroOracle 360 _ (by decide)
      (show pick_price cetes91 = some 97.5 from rfl)]
    have hv : ((97.5 : ℚ) : ℝ) / 10 = (9.75 : ℝ) := by push_cast; norm_num
    rw [show cetes91.tenor_days = (91 : ℚ) from rfl, hv]
    simp [dictSet]
  rw [runRows_cons_ok _ h2, runRows_nil]

/-- C1.  Counterexample: in the single-date run on an overnight anchor
(rate 10.5 percent) followed by the CETES row with clean price 97.5, the
accumulated pillar store after the last processed row holds
`DF(1) = 1/(1+0.105/360) < DF(91) = 9.75` with tenors `1 < 91`, so the
discount factors are not monotonically non-increasing in tenor: the
`zero_coupon` branch (and the `overnight_rate` branch) set their pillar
directly, with no cap against the previous pillar's discount factor. -/
theorem claim_C1_counterexample :
    bootstrap_state zeroOracle [cetes91, onAnchor] 360 =
      .ok ⟨[(0, 1), (1, 1 / (1 + (0.105 : ℝ) / 360)), (91, (9.75 : ℝ))],
        some (10.5 : ℝ)⟩ ∧
    (1 : ℚ) < 91 ∧ 1 / (1 + (0.105 : ℝ) / 360) < 9.75 :=
  ⟨bootstrap_state_cetes_onAnchor, by norm_num, by norm_num⟩

/-- C2.  Counterexample: a single-date input consisting of exactly the
`zero_coupon` row with `tenor_days = 91`, `clean_price = 97.5` and no dirty
price is skipped entirely by the overnight-presence guard: no pillar
`DF(91)` is created and the output holds zero rows — in particular no
tenor-91 output row with any zero rate exists, contrary to the claim. -/
theorem claim_C2_counterexample :
    bootstrap_state zeroOracle [cetes91] 360 = .ok initState ∧
      bootstrap_from_curve_df zeroOracle [cetes91] 360 = .ok [] := by
  have hON : ((sortRows [cetes91]).any fun r => r.type == "overnight_rate") = false := by
    decide
  have hstate : bootstrap_state zeroOracle [cetes91] 360 = .ok initState := by
    rw [bootstrap_state]
    simp only [hON]
    exact runRows_skip zeroOracle 360 initState _
  refine ⟨hstate, ?_⟩
  rw [bootstrap_from_curve_df, hstate]
  simp [zeroCurve, initState, List.insertionSort, List.orderedInsert]

/-- C2 amended.  When the single-date input additionally carries an
`overnight_rate` anchor row (here: tenor 1, rate 0.105), the CETES row with
`tenor_days = 91`, `clean_price = 97.5` produces the pillar
`DF(91) = 97.5/10 = 9.75` and the tenor-91 output row carries
`zero_rate = ((1/9.75)-1)*(360/91)*100` exactly (about `-355.03`, not about
`101.39` as the claim reads). -/
theorem claim_C2_amended :
    bootstrap_state zeroOracle [cetes91, onAnchor] 360 =
      .ok ⟨[(0, 1), (1, 1 / (1 + (0.105 : ℝ) / 360)), (91, (9.75 : ℝ))],
        some (10.5 : ℝ)⟩ ∧
    bootstrap_from_curve_df zeroOracle [cetes91, onAnchor] 360 =
      .ok [(1, (10.5 : ℝ)), (91, (1 / (9.75 : ℝ) - 1) * (360 / 91) * 100)] := by
  refine ⟨bootstrap_state_cetes_onAnchor, ?_⟩
  rw [bootstrap_from_curve_df, bootstrap_state_cetes_onAnchor]
  simp [zeroCurve, List.insertionSort, List.orderedInsert, dictGetD, pyInt]
  norm_num

theorem runRows_append (f : BState → Row → Except BErr BState) (s : BState)
    (l1 l2 : List Row) :
    runRows f s (l1 ++ l2) =
      match runRows f s l1 with
      | .ok s' => runRows f s' l2
      | .error e => .error e := by
  induction l1 generalizing s with
  | nil => simp [runRows]
  | cons r rest ih =>
    rw [List.cons_append, runRows, runRows]
    cases f s r with
    | ok s' => exact ih s'
    | error e => rfl

/-- C6.  Counterexample: a single-date input consisting of exactly one row
of the unrecognized type `"unknown_family"` does not fail at all: because
the input carries no `overnight_rate` row, the per-row guard skips every
row (including the unknown one), the run succeeds and the output is empty —
no `UnknownInstrumentType` error is raised. -/
theorem claim_C6_counterexample :
    bootstrap_state zeroOracle [unknownRow] 360 = .ok initState ∧
      bootstrap_from_curve_df zeroOracle [unknownRow] 360 = .ok [] := by
  have hON : ((sortRows [unknownRow]).any fun r => r.type == "overnight_rate") = false := by
    decide
  have hstate : bootstrap_state zeroOracle [unknownRow] 360 = .ok initState := by
    rw [bootstrap_state]
    simp only [hON]
    exact runRows_skip zeroOracle 360 initState _
  refine ⟨hstate, ?_⟩
  rw [bootstrap_from_curve_df, hstate]
  simp [zeroCurve, initState, List.insertionSort, List.orderedInsert]

/-- C6 amended.  When the single-date input does carry an `overnight_rate`
row, reaching a row whose normalized type is not one of the six recognized
values aborts the whole per-date bootstrap with `UnknownInstrumentType`
(provided the rows sorted before it process without error), and no output
rows are emitted for that date. -/
theorem claim_C6_amended_unknown_type_aborts (bq : (ℝ → ℝ) → ℝ → ℝ → ℝ)
    (dcc : ℚ) (rows pre post : List Row) (u : Row) (s : BState)
    (hON : ((sortRows rows).any fun r => r.type == "overnight_rate") = true)
    (hsplit : sortRows rows = pre ++ u :: post)
    (h1 : normType u ≠ "overnight_rate") (h2 : normType u ≠ "zero_coupon")
    (h3 : normType u ≠ "fixed_bond") (h4 : normType u ∉ frnTypes)
    (hpre : runRows (processRow bq dcc true) initState pre = .ok s) :
    bootstrap_state bq rows dcc = .error (.unknownInstrumentType (normType u)) ∧
      bootstrap_from_curve_df bq rows dcc =
        .error (.unknownInstrumentType (normType u)) := by
  have hstate : bootstrap_state bq rows dcc = .error (.unknownInstrumentType (normType u)) := by
    simp only [bootstrap_state, hON]
    rw [hsplit, runRows_append, hpre]
    exact runRows_cons_error post (processRow_unknown bq dcc s h1 h2 h3 h4)
  refine ⟨hstate, ?_⟩
  rw [bootstrap_from_curve_df, hstate]

/-- Witness for C6 amended: overnight anchor followed by the
`"unknown_family"` row. -/
theorem claim_C6_witness :
    sortRows [onAnchor, unknownRow] = [onAnchor] ++ unknownRow :: [] ∧
      bootstrap_from_curve_df zeroOracle [onAnchor, unknownRow] 360 =
        .error (.unknownInstrumentType "unknown_family") := by
  have hsplit : sortRows [onAnchor, unknownRow] = [onAnchor] ++ unknownRow :: [] := by
    simp [sortRows, List.insertionSort, List.orderedInsert, onAnchor, unknownRow]
  have hpre : runRows (processRow zeroOracle 360 true) initState [onAnchor] =
      .ok ⟨[(0, 1), (1, 1 / (1 + (0.105 : ℝ) / 360))], some (10.5 : ℝ)⟩ := by
    have h1 : processRow zeroOracle 360 true initState onAnchor =
        .ok ⟨[(0, 1), (1, 1 / (1 + (0.105 : ℝ) / 360))], some (10.5 : ℝ)⟩ := by
      rw [processRow_onAnchor]
      simp [initState, dictSet]
    rw [runRows_cons_ok _ h1, runRows_nil]
  have h := (claim_C6_amended_unknown_type_aborts zeroOracle 360 [onAnchor, unknownRow]
    [onAnchor] [] unknownRow _ (by decide) hsplit (by decide) (by decide) (by decide)
    (by decide) hpre).2
  exact ⟨hsplit, by simpa using h⟩

/-- C8.  An `overnight_rate` row carrying its rate `q` in `dirty_price`
sets the pillar at the row's tenor to `1/(1 + q/360)` and caches the
overnight rate as `round(q*100, 2)` when `q ≤ 1`; a value `q > 1` is first
divided by 100 as tolerated percent input; in particular `q = 0.105` gives
the pillar `1/(1 + 0.105/360)` and the cached rate `10.50`. -/
theorem claim_C8_overnight_rate_row (bq : (ℝ → ℝ) → ℝ → ℝ → ℝ)
    (s : BState) (r : Row) (q : ℚ)
    (ht : normType r = "overnight_rate") (hd : r.dirty_price = some q) :
    (¬ 1 < q → processRow bq 360 true s r =
      .ok ⟨dictSet s.pillars r.tenor_days (1 / (1 + (q : ℝ) * (1 / ((360 : ℚ) : ℝ)))),
        some (pyRound2 ((q : ℝ) * 100))⟩) ∧
    (1 < q → processRow bq 360 true s r =
      .ok ⟨dictSet s.pillars r.tenor_days
          (1 / (1 + ((q / 100 : ℚ) : ℝ) * (1 / ((360 : ℚ) : ℝ)))),
        some (pyRound2 (((q / 100 : ℚ) : ℝ) * 100))⟩) ∧
    (q = 0.105 → processRow bq 360 true s r =
      .ok ⟨dictSet s.pillars r.tenor_days (1 / (1 + (0.105 : ℝ) / 360)),
        some (10.5 : ℝ)⟩) := by
  refine ⟨fun hq => processRow_overnight bq 360 s ht hd hq,
    fun hq => processRow_overnight_pct bq 360 s ht hd hq, fun hq => ?_⟩
  subst hq
  rw [processRow_overnight bq 360 s ht hd (by norm_num)]
  rw [pyRound2_ten_half _ (by push_cast; norm_num)]
  have hv : (1 : ℝ) / (1 + ((0.105 : ℚ) : ℝ) * (1 / ((360 : ℚ) : ℝ))) =
      1 / (1 + (0.105 : ℝ) / 360) := by
    push_cast
    norm_num
  rw [hv]

/-- Witness for C8 at the overnight anchor row with rate 0.105. -/
theorem claim_C8_witness :
    (normType onAnchor = "overnight_rate" ∧ onAnchor.dirty_price = some 0.105) ∧
      processRow zeroOracle 360 true initState onAnchor =
        .ok ⟨dictSet initState.pillars onAnchor.tenor_days
            (1 / (1 + (0.105 : ℝ) / 360)), some (10.5 : ℝ)⟩ :=
  ⟨⟨by decide, rfl⟩,
    (claim_C8_overnight_rate_row zeroOracle initState onAnchor 0.105
      (by decide) rfl).2.2 rfl⟩

theorem frn_params_k (T : ℚ) (rPct sPct : ℝ) :
    (frn_28day_coupon_params T rPct sPct).k = if 0 < T then Int.ceil (T / 28) else 0 := by
  by_cases h0 : 0 < T
  · rw [frn_28day_coupon_params]
    simp only [h0, if_true]
    split
    · next hz => exact hz.symm
    · rfl
  · simp [frn_28day_coupon_params, h0]

theorem ensure_on_rate_pct_pillars {dcc : ℚ} {s : BState} {v : ℝ} {s1 : BState}
    (h : ensure_on_rate_pct dcc s = .ok (v, s1)) : s1.pillars = s.pillars := by
  rw [ensure_on_rate_pct] at h
  cases ho : s.onRatePct with
  | some w =>
    rw [ho] at h
    dsimp only at h
    simp only [Except.ok.injEq, Prod.mk.injEq] at h
    rw [← h.2]
  | none =>
    rw [ho] at h
    dsimp only at h
    by_cases hk : dictHasKey s.pillars 1 = true
    · rw [if_pos hk] at h
      simp only [Except.ok.injEq, Prod.mk.injEq] at h
      rw [← h.2]
    · rw [if_neg hk] at h
      exact absurd h (by simp)

theorem fixed_bond_cap (bq : (ℝ → ℝ) → ℝ → ℝ → ℝ) (dcc : ℚ) (s s' : BState) (r : Row)
    (h : normType r = "fixed_bond")
    (hok : processRow bq dcc true s r = .ok s') :
    ∃ v, s'.pillars = dictSet s.pillars r.tenor_days v ∧
      v ≤ max (1e-12 : ℝ) (dfAt s.pillars ((maxKeyQ s.pillars : ℚ) : ℝ)) := by
  simp [processRow, h] at hok
  cases hp : pick_price r with
  | none => rw [hp] at hok; exact absurd hok (by simp)
  | some price =>
    rw [hp] at hok
    dsimp only at hok
    cases hc : r.coupon with
    | none => rw [hc] at hok; exact absurd hok (by simp)
    | some cq =>
      rw [hc] at hok
      dsimp only at hok
      split at hok
      · exact absurd hok (by simp)
      · split at hok
        · exact absurd hok (by simp)
        · injection hok with h2
          subst h2
          exact ⟨_, rfl, max_le_max le_rfl (min_le_right _ _)⟩

theorem frn_cap (bq : (ℝ → ℝ) → ℝ → ℝ → ℝ) (dcc : ℚ) (s s' : BState) (r : Row)
    (ht : normType r ∈ frnTypes) (hT : 0 < r.tenor_days)
    (hok : processRow bq dcc true s r = .ok s') :
    ∃ v, s'.pillars = dictSet s.pillars r.tenor_days v ∧
      v ≤ max (1e-12 : ℝ) (dfAt s.pillars ((maxKeyQ s.pillars : ℚ) : ℝ)) := by
  have hkpos : ∀ rp sp : ℝ, ¬ (frn_28day_coupon_params r.tenor_days rp sp).k ≤ 0 := by
    intro rp sp
    rw [frn_params_k, if_pos hT]
    simp only [not_le]
    exact Int.ceil_pos.mpr (by positivity)
  simp only [frnTypes, List.mem_cons, List.mem_singleton, List.not_mem_nil, or_false] at ht
  rcases ht with h | h | h <;>
  · simp [processRow, h, frnTypes] at hok
    cases he : ensure_on_rate_pct dcc s with
    | error e => rw [he] at hok; exact absurd hok (by simp)
    | ok pr =>
      obtain ⟨rPct, s1⟩ := pr
      have hpil : s1.pillars = s.pillars := ensure_on_rate_pct_pillars he
      rw [he] at hok
      dsimp only at hok
      rw [if_neg (hkpos _ _)] at hok
      cases hd : r.dirty_price with
      | some pd =>
        rw [hd] at hok
        dsimp only at hok
        split at hok
        · exact absurd hok (by simp)
        · split at hok
          · exact absurd hok (by simp)
          · injection hok with h2
            subst h2
            rw [hpil]
            exact ⟨_, rfl, max_le_max le_rfl (min_le_right _ _)⟩
      | none =>
        rw [hd] at hok
        dsimp only at hok
        cases hcl : r.clean_price with
        | none => rw [hcl] at hok; exact absurd hok (by simp)
        | some pc =>
          rw [hcl] at hok
          dsimp only at hok
          split at hok
          · exact absurd hok (by simp)
          · split at hok
            · exact absurd hok (by simp)
            · injection hok with h2
              subst h2
              rw [hpil]
              exact ⟨_, rfl, max_le_max le_rfl (min_le_right _ _)⟩

/-- C1 amended.  The cap against the previous last pillar's discount
factor is enforced only by the `fixed_bond` and FRN branches: whenever one
of those rows is processed successfully, the pillar value written at the
row's tenor is at most the interpolated discount factor at the previous
last pillar (assuming that value is at least the `1e-12` floor of the cap);
the `overnight_rate` and `zero_coupon` branches write their pillar with no
such cap, so the store-wide monotonicity claimed for every row fails (see
the counterexample). -/
theorem claim_C1_amended_cap_only_bond_and_frn (bq : (ℝ → ℝ) → ℝ → ℝ → ℝ)
    (dcc : ℚ) (s s' : BState) (r : Row)
    (hcap : (1e-12 : ℝ) ≤ dfAt s.pillars ((maxKeyQ s.pillars : ℚ) : ℝ)) :
    (normType r = "fixed_bond" → processRow bq dcc true s r = .ok s' →
      ∃ v, s'.pillars = dictSet s.pillars r.tenor_days v ∧
        v ≤ dfAt s.pillars ((maxKeyQ s.pillars : ℚ) : ℝ)) ∧
    (normType r ∈ frnTypes → 0 < r.tenor_days →
      processRow bq dcc true s r = .ok s' →
      ∃ v, s'.pillars = dictSet s.pillars r.tenor_days v ∧
        v ≤ dfAt s.pillars ((maxKeyQ s.pillars : ℚ) : ℝ)) := by
  have hmax : max (1e-12 : ℝ) (dfAt s.pillars ((maxKeyQ s.pillars : ℚ) : ℝ)) =
      dfAt s.pillars ((maxKeyQ s.pillars : ℚ) : ℝ) := max_eq_right hcap
  constructor
  · intro h hok
    obtain ⟨v, hv1, hv2⟩ := fixed_bond_cap bq dcc s s' r h hok
    exact ⟨v, hv1, hmax ▸ hv2⟩
  · intro h hT hok
    obtain ⟨v, hv1, hv2⟩ := frn_cap bq dcc s s' r h hT hok
    exact ⟨v, hv1, hmax ▸ hv2⟩

theorem processRow_mbono91 :
    processRow zeroOracle 360 true initState mbono91 =
      .ok ⟨[(0, 1), (91, (1e-12 : ℝ))], none⟩ := by
  have hnorm : normType mbono91 = "fixed_bond" := by decide
  have hT : mbono91.tenor_days = (91 : ℚ) := rfl
  have hpick : pick_price mbono91 = some 95 := rfl
  have hcoup : mbono91.coupon = some 8 := rfl
  simp [processRow, hnorm, hT, hpick, hcoup, initState, maxKeyQ, List.max?,
    dfAt, sortPillars, List.insertionSort, List.orderedInsert, dfAtSorted,
    solve_df_T_loglinear_generic, pv_given_dfT, zeroOracle, dictSet, isClose]
  norm_num [hT, Int.toNat_zero, List.range_zero, min_def, max_def]

theorem processRow_frn28 :
    processRow zeroOracle 360 true ⟨[(0, 1)], some (10.5 : ℝ)⟩ frn28 =
      .ok ⟨[(0, 1), (28, (1e-12 : ℝ))], some (10.5 : ℝ)⟩ := by
  have hnorm : normType frn28 = "floating_bondes_f" := by decide
  have hT : frn28.tenor_days = (28 : ℚ) := rfl
  have hdp : frn28.dirty_price = some 50 := rfl
  have hcoup : frn28.coupon = none := rfl
  simp [processRow, hnorm, hT, hdp, hcoup, frnTypes, ensure_on_rate_pct,
    normalize_spread_pct, frn_28day_coupon_params, maxKeyQ, List.max?,
    dfAt, sortPillars, List.insertionSort, List.orderedInsert, dfAtSorted,
    solve_df_T_loglinear_generic, pv_given_dfT, zeroOracle, dictSet]
  norm_num [min_def, max_def]

/-- Witness for C1 amended: both capped branches are exercised at concrete
inputs.  From the seeded state the MBONO row of tenor 91 processes
successfully to the state with the new pillar `(91, 1e-12)` (the solver
oracle's 0 is floored by the cap `max(1e-12, min(·, DF(S)))`), and from the
seeded state with a cached overnight rate the BONDES F row of tenor 28
likewise processes to the state with the new pillar `(28, 1e-12)`; the
amended theorem applied at these inputs yields the capped-value conclusion
for each branch. -/
theorem claim_C1_witness :
    ((1e-12 : ℝ) ≤ dfAt [((0 : ℚ), (1 : ℝ))] ((maxKeyQ [((0 : ℚ), (1 : ℝ))] : ℚ) : ℝ) ∧
      normType mbono91 = "fixed_bond" ∧
      processRow zeroOracle 360 true initState mbono91 =
        .ok ⟨[(0, 1), (91, (1e-12 : ℝ))], none⟩ ∧
      normType frn28 ∈ frnTypes ∧ 0 < frn28.tenor_days ∧
      processRow zeroOracle 360 true ⟨[(0, 1)], some (10.5 : ℝ)⟩ frn28 =
        .ok ⟨[(0, 1), (28, (1e-12 : ℝ))], some (10.5 : ℝ)⟩) ∧
    (∃ v, (⟨[(0, 1), (91, (1e-12 : ℝ))], none⟩ : BState).pillars =
        dictSet initState.pillars mbono91.tenor_days v ∧
        v ≤ dfAt initState.pillars ((maxKeyQ initState.pillars : ℚ) : ℝ)) ∧
    (∃ v, (⟨[(0, 1), (28, (1e-12 : ℝ))], some (10.5 : ℝ)⟩ : BState).pillars =
        dictSet (⟨[(0, 1)], some (10.5 : ℝ)⟩ : BState).pillars frn28.tenor_days v ∧
        v ≤ dfAt (⟨[(0, 1)], some (10.5 : ℝ)⟩ : BState).pillars
          ((maxKeyQ (⟨[(0, 1)], some (10.5 : ℝ)⟩ : BState).pillars : ℚ) : ℝ)) := by
  have hcap : (1e-12 : ℝ) ≤
      dfAt [((0 : ℚ), (1 : ℝ))] ((maxKeyQ [((0 : ℚ), (1 : ℝ))] : ℚ) : ℝ) := by
    simp [dfAt, sortPillars, dfAtSorted, maxKeyQ, List.max?,
      List.insertionSort, List.orderedInsert]
    norm_num
  refine ⟨⟨hcap, by decide, processRow_mbono91, by decide, by decide,
    processRow_frn28⟩, ?_, ?_⟩
  · exact (claim_C1_amended_cap_only_bond_and_frn zeroOracle 360 initState
      ⟨[(0, 1), (91, (1e-12 : ℝ))], none⟩ mbono91 hcap).1 (by decide) processRow_mbono91
  · exact (claim_C1_amended_cap_only_bond_and_frn zeroOracle 360
      ⟨[(0, 1)], some (10.5 : ℝ)⟩ ⟨[(0, 1), (28, (1e-12 : ℝ))], some (10.5 : ℝ)⟩
      frn28 hcap).2 (by decide) (by decide) processRow_frn28

theorem sortPillars_perm (d : List (ℚ × ℝ)) : List.Perm (sortPillars d) d :=
  List.perm_insertionSort _ d

theorem sortPillars_sorted (d : List (ℚ × ℝ)) :
    (sortPillars d).Pairwise (fun a b => a.1 ≤ b.1) :=
  List.sorted_insertionSort _ d

theorem sortPillars_pairwise_lt (d : List (ℚ × ℝ)) (hnd : (d.map Prod.fst).Nodup) :
    (sortPillars d).Pairwise (fun a b => a.1 < b.1) := by
  have hnd' : ((sortPillars d).map Prod.fst).Nodup :=
    (((sortPillars_perm d).map Prod.fst).nodup_iff).mpr hnd
  have hne : (sortPillars d).Pairwise (fun a b : ℚ × ℝ => a.1 ≠ b.1) :=
    List.pairwise_map.mp hnd'
  exact ((sortPillars_sorted d).and hne).imp fun h => lt_of_le_of_ne h.1 h.2

theorem sortPillars_ne_nil {d : List (ℚ × ℝ)} (hne : d ≠ []) : sortPillars d ≠ [] := by
  intro h
  have hp : List.Perm [] d := h ▸ sortPillars_perm d
  exact hne hp.symm.eq_nil

theorem getLastD_mem {l : List (ℚ × ℝ)} (h : l ≠ []) (z : ℚ × ℝ) : l.getLastD z ∈ l := by
  rw [List.getLastD_eq_getLast?, List.getLast?_eq_getLast l h]
  exact List.getLast_mem h

theorem key_le_getLastD : ∀ (l : List (ℚ × ℝ)),
    l.Pairwise (fun a b => a.1 ≤ b.1) → ∀ z, ∀ q ∈ l, q.1 ≤ (l.getLastD z).1 := by
  intro l
  induction l with
  | nil => intro _ z q hq; exact absurd hq (List.not_mem_nil q)
  | cons p tl ih =>
    intro hp z q hq
    cases tl with
    | nil =>
      have hqp : q = p := by simpa using hq
      subst hqp
      simp
    | cons b t =>
      rw [List.getLastD_cons]
      rcases List.mem_cons.mp hq with h | h
      · subst h
        exact (List.pairwise_cons.mp hp).1 _ (getLastD_mem (by simp) q)
      · exact ih (List.pairwise_cons.mp hp).2 p q h

theorem dfAtSorted_anti_of_last_le : ∀ (l : List (ℚ × ℝ)),
    l.Pairwise (fun a b => a.1 < b.1) → l ≠ [] →
    ∀ t1 t2 : ℝ, (((l.getLastD (0, 0)).1 : ℚ) : ℝ) ≤ t1 → t1 ≤ t2 →
    dfAtSorted l t2 ≤ dfAtSorted l t1 := by
  intro l hlt hne t1 t2 h1 h12
  match l with
  | [(x, y)] => simp [dfAtSorted]
  | (x0, y0) :: p1 :: rest =>
    have hx0 : (x0 : ℝ) < ((((x0, y0) :: p1 :: rest).getLastD (0, 0)).1 : ℝ) := by
      have hmem : ((p1 :: rest).getLastD (x0, y0)) ∈ p1 :: rest :=
        getLastD_mem (by simp) _
      have := (List.pairwise_cons.mp hlt).1 _ hmem
      rw [List.getLastD_cons]
      exact_mod_cast this
    have hnt1 : ¬ t1 ≤ (x0 : ℝ) := not_le.mpr (lt_of_lt_of_le hx0 h1)
    have hnt2 : ¬ t2 ≤ (x0 : ℝ) := not_le.mpr (lt_of_lt_of_le hx0 (le_trans h1 h12))
    have h2 : (((((x0, y0) :: p1 :: rest).getLastD (0, 0)).1 : ℚ) : ℝ) ≤ t2 := le_trans h1 h12
    rw [dfAtSorted, dfAtSorted]
    rw [if_neg hnt1, if_neg hnt2, if_pos h1, if_pos h2]
    apply Real.exp_le_exp.mpr
    apply add_le_add_left
    have hm : min ((Real.log (((x0, y0) :: p1 :: rest).getLastD (0, 0)).2 -
        Real.log ((((x0, y0) :: p1 :: rest).dropLast).getLastD (0, 0)).2) /
        (((((x0, y0) :: p1 :: rest).getLastD (0, 0)).1 : ℝ) -
          (((((x0, y0) :: p1 :: rest).dropLast).getLastD (0, 0)).1 : ℝ))) (-1e-12) ≤ 0 :=
      le_trans (min_le_right _ _) (by norm_num)
    exact mul_le_mul_of_nonpos_left (by linarith) hm

theorem maxKeyQ_eq_last_key (d : List (ℚ × ℝ)) (hne : d ≠ []) :
    maxKeyQ d = ((sortPillars d).getLastD (0, 0)).1 := by
  have hks : d.map Prod.fst ≠ [] := by
    simpa using hne
  obtain ⟨m, hm⟩ : ∃ m, (d.map Prod.fst).max? = some m := by
    cases h : (d.map Prod.fst).max? with
    | none => exact absurd (List.max?_eq_none_iff.mp h) hks
    | some m => exact ⟨m, rfl⟩
  have hmem : m ∈ d.map Prod.fst := List.max?_mem (fun a b => max_choice a b) hm
  have hub : ∀ b ∈ d.map Prod.fst, b ≤ m :=
    (List.max?_le_iff (fun a b c => max_le_iff) hm).mp le_rfl
  have hlne : sortPillars d ≠ [] := sortPillars_ne_nil hne
  have hlast_mem_d : (sortPillars d).getLastD (0, 0) ∈ d :=
    (sortPillars_perm d).mem_iff.mp (getLastD_mem hlne _)
  have h1 : ((sortPillars d).getLastD (0, 0)).1 ≤ m :=
    hub _ (List.mem_map_of_mem Prod.fst hlast_mem_d)
  have h2 : m ≤ ((sortPillars d).getLastD (0, 0)).1 := by
    obtain ⟨p, hpd, hpm⟩ := List.mem_map.mp hmem
    have hpl : p ∈ sortPillars d := (sortPillars_perm d).mem_iff.mpr hpd
    exact hpm ▸ key_le_getLastD _ (sortPillars_sorted d) (0, 0) p hpl
  rw [maxKeyQ, hm]
  simp only [Option.getD_some]
  exact le_antisymm h2 h1

theorem sortPillars_head_base (d : List (ℚ × ℝ))
    (hmem : ((0 : ℚ), (1 : ℝ)) ∈ d) (hnd : (d.map Prod.fst).Nodup)
    (hnn : ∀ p ∈ d, 0 ≤ p.1) :
    ∃ tl, sortPillars d = ((0 : ℚ), (1 : ℝ)) :: tl := by
  have hmem' : ((0 : ℚ), (1 : ℝ)) ∈ sortPillars d := (sortPillars_perm d).mem_iff.mpr hmem
  have hlt := sortPillars_pairwise_lt d hnd
  cases hl : sortPillars d with
  | nil => rw [hl] at hmem'; exact absurd hmem' (List.not_mem_nil _)
  | cons p tl =>
    rw [hl] at hmem' hlt
    rcases List.mem_cons.mp hmem' with h | h
    · exact ⟨tl, by rw [← h]⟩
    · exfalso
      have hplt : p.1 < (0 : ℚ) := (List.pairwise_cons.mp hlt).1 _ h
      have hpd : p ∈ d := (sortPillars_perm d).mem_iff.mp (hl ▸ List.mem_cons_self p tl)
      exact absurd (hnn p hpd) (not_le.mpr hplt)

theorem dfAt_zero_of_base (d : List (ℚ × ℝ))
    (hmem : ((0 : ℚ), (1 : ℝ)) ∈ d) (hnd : (d.map Prod.fst).Nodup)
    (hnn : ∀ p ∈ d, 0 ≤ p.1) :
    dfAt d 0 = 1 := by
  obtain ⟨tl, hl⟩ := sortPillars_head_base d hmem hnd hnn
  rw [dfAt, hl]
  cases tl with
  | nil => simp [dfAtSorted]
  | cons p1 rest =>
    rw [dfAtSorted]
    rw [if_pos (by norm_num : (0 : ℝ) ≤ (((0 : ℚ) : ℝ)))]
    simp [Real.log_one, Real.exp_zero]

/-- C3.  Counterexample: the pillar set with the single pillar
`(1, 0.5)` is valid (its only discount factor is strictly positive), yet
`df_at(0) = 0.5 ≠ 1.0`: the curve function returns 1 at tenor 0 only when
the pillar `(0, 1.0)` is itself in the set (as the driver guarantees), not
for every valid pillar set. -/
theorem claim_C3_counterexample :
    (∀ p ∈ [((1 : ℚ), (1/2 : ℝ))], 0 < p.2) ∧
      dfAt [((1 : ℚ), (1/2 : ℝ))] 0 = 1/2 ∧ (1/2 : ℝ) ≠ 1 := by
  refine ⟨?_, ?_, by norm_num⟩
  · intro p hp
    have : p = ((1 : ℚ), (1/2 : ℝ)) := by simpa using hp
    rw [this]
    norm_num
  · simp [dfAt, sortPillars, List.insertionSort, List.orderedInsert, dfAtSorted]

/-- C3 amended.  For every pillar set with pairwise-distinct tenors and
strictly positive discount factors: if the base pillar `(0, 1.0)` belongs
to the set and all tenors are non-negative (both guaranteed by the driver),
then `df_at(0) = 1.0`; and `df_at` is non-increasing in `t` for all `t` at
or beyond the last pillar's tenor (the extrapolation slope is clamped to at
most `-1e-12`). -/
theorem claim_C3_amended_df_at_props (d : List (ℚ × ℝ))
    (hnd : (d.map Prod.fst).Nodup) (hpos : ∀ p ∈ d, 0 < p.2) :
    (((0 : ℚ), (1 : ℝ)) ∈ d → (∀ p ∈ d, 0 ≤ p.1) → dfAt d 0 = 1) ∧
    (d ≠ [] → ∀ t1 t2 : ℝ, ((maxKeyQ d : ℚ) : ℝ) ≤ t1 → t1 ≤ t2 →
      dfAt d t2 ≤ dfAt d t1) := by
  constructor
  · exact fun hm hnn => dfAt_zero_of_base d hm hnd hnn
  · intro hne t1 t2 h1 h12
    have hb := maxKeyQ_eq_last_key d hne
    rw [hb] at h1
    exact dfAtSorted_anti_of_last_le (sortPillars d) (sortPillars_pairwise_lt d hnd)
      (sortPillars_ne_nil hne) t1 t2 h1 h12

/-- Witness for C3 amended at the seeded one-pillar store. -/
theorem claim_C3_witness :
    (([((0 : ℚ), (1 : ℝ))].map Prod.fst).Nodup ∧
      (∀ p ∈ [((0 : ℚ), (1 : ℝ))], 0 < p.2)) ∧
    ((((0 : ℚ), (1 : ℝ)) ∈ [((0 : ℚ), (1 : ℝ))] →
        (∀ p ∈ [((0 : ℚ), (1 : ℝ))], 0 ≤ p.1) → dfAt [((0 : ℚ), (1 : ℝ))] 0 = 1) ∧
      ([((0 : ℚ), (1 : ℝ))] ≠ [] → ∀ t1 t2 : ℝ,
        ((maxKeyQ [((0 : ℚ), (1 : ℝ))] : ℚ) : ℝ) ≤ t1 → t1 ≤ t2 →
        dfAt [((0 : ℚ), (1 : ℝ))] t2 ≤ dfAt [((0 : ℚ), (1 : ℝ))] t1)) := by
  have hnd : ([((0 : ℚ), (1 : ℝ))].map Prod.fst).Nodup := by simp
  have hpos : ∀ p ∈ [((0 : ℚ), (1 : ℝ))], 0 < p.2 := by
    intro p hp
    have : p = ((0 : ℚ), (1 : ℝ)) := by simpa using hp
    rw [this]
    norm_num
  exact ⟨⟨hnd, hpos⟩, claim_C3_amended_df_at_props _ hnd hpos⟩

theorem sortRows_pairwise_lt (rows : List Row) (hnd : (rows.map Row.tenor_days).Nodup) :
    (sortRows rows).Pairwise (fun a b => a.tenor_days < b.tenor_days) := by
  have hperm : List.Perm (sortRows rows) rows := List.perm_insertionSort _ rows
  have hnd' : ((sortRows rows).map Row.tenor_days).Nodup :=
    ((hperm.map Row.tenor_days).nodup_iff).mpr hnd
  have hne : (sortRows rows).Pairwise (fun a b : Row => a.tenor_days ≠ b.tenor_days) :=
    List.pairwise_map.mp hnd'
  have hs : (sortRows rows).Pairwise (fun a b => a.tenor_days ≤ b.tenor_days) :=
    List.sorted_insertionSort _ rows
  exact (hs.and hne).imp fun h => lt_of_le_of_ne h.1 h.2

theorem sortRows_eq_of_perm (rows1 rows2 : List Row)
    (hperm : List.Perm rows1 rows2) (hnd : (rows1.map Row.tenor_days).Nodup) :
    sortRows rows1 = sortRows rows2 := by
  have hnd2 : (rows2.map Row.tenor_days).Nodup :=
    ((hperm.map Row.tenor_days).nodup_iff).mp hnd
  have hp : List.Perm (sortRows rows1) (sortRows rows2) :=
    ((List.perm_insertionSort _ rows1).trans hperm).trans
      (List.perm_insertionSort _ rows2).symm
  exact List.eq_of_perm_of_sorted hp (sortRows_pairwise_lt rows1 hnd)
    (sortRows_pairwise_lt rows2 hnd2)

theorem bootstrap_state_tie_97_95 :
    bootstrap_state zeroOracle [onAnchor, cetes91, cetes91b] 360 =
      .ok ⟨[(0, 1), (1, 1 / (1 + (0.105 : ℝ) / 360)), (91, (9.5 : ℝ))],
        some (10.5 : ℝ)⟩ := by
  have hs : sortRows [onAnchor, cetes91, cetes91b] = [onAnchor, cetes91, cetes91b] := by
    simp [sortRows, List.insertionSort, List.orderedInsert, cetes91, cetes91b, onAnchor]
  rw [bootstrap_state]
  simp only [hs]
  have hany : ([onAnchor, cetes91, cetes91b].any fun r => r.type == "overnight_rate") = true := by
    decide
  rw [hany]
  have h1 : processRow zeroOracle 360 true initState onAnchor =
      .ok ⟨[(0, 1), (1, 1 / (1 + (0.105 : ℝ) / 360))], some (10.5 : ℝ)⟩ := by
    rw [processRow_onAnchor]
    simp [initState, dictSet]
  rw [runRows_cons_ok _ h1]
  have h2 : processRow zeroOracle 360 true
      ⟨[(0, 1), (1, 1 / (1 + (0.105 : ℝ) / 360))], some (10.5 : ℝ)⟩ cetes91 =
      .ok ⟨[(0, 1), (1, 1 / (1 + (0.105 : ℝ) / 360)), (91, (9.75 : ℝ))],
        some (10.5 : ℝ)⟩ := by
    rw [processRow_zero_coupon zeroOracle 360 _ (by decide)
      (show pick_price cetes91 = some 97.5 from rfl)]
    have hv : ((97.5 : ℚ) : ℝ) / 10 = (9.75 : ℝ) := by push_cast; norm_num
    rw [show cetes91.tenor_days = (91 : ℚ) from rfl, hv]
    simp [dictSet]
  rw [runRows_cons_ok _ h2]
  have h3 : processRow zeroOracle 360 true
      ⟨[(0, 1), (1, 1 / (1 + (0.105 : ℝ) / 360)), (91, (9.75 : ℝ))], some (10.5 : ℝ)⟩
      cetes91b =
      .ok ⟨[(0, 1), (1, 1 / (1 + (0.105 : ℝ) / 360)), (91, (9.5 : ℝ))],
        some (10.5 : ℝ)⟩ := by
    rw [processRow_zero_coupon zeroOracle 360 _ (by decide)
      (show pick_price cetes91b = some 95 from rfl)]
    have hv : ((95 : ℚ) : ℝ) / 10 = (9.5 : ℝ) := by push_cast; norm_num
    rw [show cetes91b.tenor_days = (91 : ℚ) from rfl, hv]
    simp [dictSet]
  rw [runRows_cons_ok _ h3, runRows_nil]

theorem bootstrap_state_tie_95_97 :
    bootstrap_state zeroOracle [onAnchor, cetes91b, cetes91] 360 =
      .ok ⟨[(0, 1), (1, 1 / (1 + (0.105 : ℝ) / 360)), (91, (9.75 : ℝ))],
        some (10.5 : ℝ)⟩ := by
  have hs : sortRows [onAnchor, cetes91b, cetes91] = [onAnchor, cetes91b, cetes91] := by
    simp [sortRows, List.insertionSort, List.orderedInsert, cetes91, cetes91b, onAnchor]
  rw [bootstrap_state]
  simp only [hs]
  have hany : ([onAnchor, cetes91b, cetes91].any fun r => r.type == "overnight_rate") = true := by
    decide
  rw [hany]
  have h1 : processRow zeroOracle 360 true initState onAnchor =
      .ok ⟨[(0, 1), (1, 1 / (1 + (0.105 : ℝ) / 360))], some (10.5 : ℝ)⟩ := by
    rw [processRow_onAnchor]
    simp [initState, dictSet]
  rw [runRows_cons_ok _ h1]
  have h2 : processRow zeroOracle 360 true
      ⟨[(0, 1), (1, 1 / (1 + (0.105 : ℝ) / 360))], some (10.5 : ℝ)⟩ cetes91b =
      .ok ⟨[(0, 1), (1, 1 / (1 + (0.105 : ℝ) / 360)), (91, (9.5 : ℝ))],
        some (10.5 : ℝ)⟩ := by
    rw [processRow_zero_coupon zeroOracle 360 _ (by decide)
      (show pick_price cetes91b = some 95 from rfl)]
    have hv : ((95 : ℚ) : ℝ) / 10 = (9.5 : ℝ) := by push_cast; norm_num
    rw [show cetes91b.tenor_days = (91 : ℚ) from rfl, hv]
    simp [dictSet]
  rw [runRows_cons_ok _ h2]
  have h3 : processRow zeroOracle 360 true
      ⟨[(0, 1), (1, 1 / (1 + (0.105 : ℝ) / 360)), (91, (9.5 : ℝ))], some (10.5 : ℝ)⟩
      cetes91 =
      .ok ⟨[(0, 1), (1, 1 / (1 + (0.105 : ℝ) / 360)), (91, (9.75 : ℝ))],
        some (10.5 : ℝ)⟩ := by
    rw [processRow_zero_coupon zeroOracle 360 _ (by decide)
      (show pick_price cetes91 = some 97.5 from rfl)]
    have hv : ((97.5 : ℚ) : ℝ) / 10 = (9.75 : ℝ) := by push_cast; norm_num
    rw [show cetes91.tenor_days = (91 : ℚ) from rfl, hv]
    simp [dictSet]
  rw [runRows_cons_ok _ h3, runRows_nil]

theorem tie_output_97_95 :
    bootstrap_from_curve_df zeroOracle [onAnchor, cetes91, cetes91b] 360 =
      .ok [(1, (10.5 : ℝ)), (91, (1 / (9.5 : ℝ) - 1) * (360 / 91) * 100)] := by
  rw [bootstrap_from_curve_df, bootstrap_state_tie_97_95]
  simp [zeroCurve, List.insertionSort, List.orderedInsert, dictGetD, pyInt]
  norm_num

theorem tie_output_95_97 :
    bootstrap_from_curve_df zeroOracle [onAnchor, cetes91b, cetes91] 360 =
      .ok [(1, (10.5 : ℝ)), (91, (1 / (9.75 : ℝ) - 1) * (360 / 91) * 100)] := by
  rw [bootstrap_from_curve_df, bootstrap_state_tie_95_97]
  simp [zeroCurve, List.insertionSort, List.orderedInsert, dictGetD, pyInt]
  norm_num

/-- C9.  Counterexample: two input orders of the same three rows — the
overnight anchor plus two `zero_coupon` rows that share tenor 91 but carry
prices 97.5 and 95 — yield different outputs: the stable sort keeps the
tied rows in input order and the later one overwrites the tenor-91 pillar,
so the output is not independent of the input order when tenors tie. -/
theorem claim_C9_counterexample :
    List.Perm [onAnchor, cetes91, cetes91b] [onAnchor, cetes91b, cetes91] ∧
      bootstrap_from_curve_df zeroOracle [onAnchor, cetes91, cetes91b] 360 ≠
        bootstrap_from_curve_df zeroOracle [onAnchor, cetes91b, cetes91] 360 := by
  constructor
  · exact List.Perm.cons onAnchor (List.Perm.swap cetes91b cetes91 [])
  · rw [tie_output_97_95, tie_output_95_97]
    intro h
    simp only [Except.ok.injEq, List.cons.injEq, Prod.mk.injEq, and_true, true_and] at h
    norm_num at h

/-- C9 amended.  When the rows' tenors are pairwise distinct, feeding the
rows to the per-date bootstrap in any input order yields the same output as
any other order (in particular the pre-sorted one), because the driver
sorts by `tenor_days` before processing; with tied tenors the output
depends on the relative input order of the tied rows (see the
counterexample). -/
theorem claim_C9_amended_order_invariance (bq : (ℝ → ℝ) → ℝ → ℝ → ℝ) (dcc : ℚ)
    (rows1 rows2 : List Row) (hperm : List.Perm rows1 rows2)
    (hnd : (rows1.map Row.tenor_days).Nodup) :
    bootstrap_from_curve_df bq rows1 dcc = bootstrap_from_curve_df bq rows2 dcc := by
  have hs := sortRows_eq_of_perm rows1 rows2 hperm hnd
  simp only [bootstrap_from_curve_df, bootstrap_state, hs]

/-- Witness for C9 amended: the two-row input in both orders. -/
theorem claim_C9_witness :
    (List.Perm [cetes91, onAnchor] [onAnchor, cetes91] ∧
      ([cetes91, onAnchor].map Row.tenor_days).Nodup) ∧
      bootstrap_from_curve_df zeroOracle [cetes91, onAnchor] 360 =
        bootstrap_from_curve_df zeroOracle [onAnchor, cetes91] 360 := by
  have hperm : List.Perm [cetes91, onAnchor] [onAnchor, cetes91] :=
    List.Perm.swap onAnchor cetes91 []
  have hnd : ([cetes91, onAnchor].map Row.tenor_days).Nodup := by
    simp [cetes91, onAnchor]
  exact ⟨⟨hperm, hnd⟩,
    claim_C9_amended_order_invariance zeroOracle 360 _ _ hperm hnd⟩

theorem runGroups_skip (bq : (ℝ → ℝ) → ℝ → ℝ → ℝ) (gs1 gs2 : List (ℚ × List RawRow))
    (d : ℚ) (rows : List RawRow) (h : rows.length < 5) :
    ∀ acc, boostrap_mbono_curve.runGroups bq acc (gs1 ++ (d, rows) :: gs2) =
      boostrap_mbono_curve.runGroups bq acc (gs1 ++ gs2) := by
  induction gs1 with
  | nil =>
    intro acc
    rw [List.nil_append, List.nil_append, boostrap_mbono_curve.runGroups]
    rw [if_pos h]
  | cons g rest ih =>
    intro acc
    rw [List.cons_append, List.cons_append,
      boostrap_mbono_curve.runGroups, boostrap_mbono_curve.runGroups]
    by_cases hg : g.2.length < 5
    · rw [if_pos hg, if_pos hg]
      exact ih acc
    · rw [if_neg hg, if_neg hg]
      cases bootstrap_from_curve_df bq (g.2.map remapRow) 360 with
      | error e => rfl
      | ok out => exact ih _

/-- C7.  In the time-series orchestrator of `rates_to_curves.py`, a
valuation-date group with fewer than 5 instrument rows is skipped entirely:
removing it from the group list leaves the orchestrator's output unchanged
(it contributes zero rows) and no error is raised for it, whatever the
other groups are. -/
theorem claim_C7_small_group_skipped (bq : (ℝ → ℝ) → ℝ → ℝ → ℝ)
    (gs1 gs2 : List (ℚ × List RawRow)) (d : ℚ) (rows : List RawRow)
    (h : rows.length < 5) :
    boostrap_mbono_curve bq (gs1 ++ (d, rows) :: gs2) =
      boostrap_mbono_curve bq (gs1 ++ gs2) := by
  rw [boostrap_mbono_curve, boostrap_mbono_curve]
  exact runGroups_skip bq gs1 gs2 d rows h []

/-- Witness for C7 at a single date group with exactly 4 rows. -/
theorem claim_C7_witness :
    (List.replicate 4 rawCete).length < 5 ∧
      boostrap_mbono_curve zeroOracle ([] ++ (1, List.replicate 4 rawCete) :: []) =
        boostrap_mbono_curve zeroOracle ([] ++ []) :=
  ⟨by decide,
    claim_C7_small_group_skipped zeroOracle [] [] 1 (List.replicate 4 rawCete)
      (by decide)⟩

/-- C10.  `bootstrap_from_curve_df` leaves the caller's DataFrame object
unchanged: `df = curve_df.copy()` allocates a fresh frame, the four numeric
column coercions mutate only that copy (and the sort rebinds the local name
to yet another fresh frame), so the store cell the caller holds is the same
after the preprocessing as before; the rest of the function only reads the
local frame. -/
theorem claim_C10_caller_frame_unchanged (st : Store) (ref : Nat)
    (h : ref < st.length) :
    ((bootstrap_preprocess st ref).1).getD ref [] = st.getD ref [] := by
  simp only [bootstrap_preprocess]
  have hne : ref ≠ st.length := Nat.ne_of_lt h
  simp [List.getD_eq_getElem?_getD, List.getElem?_append_left,
    List.getElem?_set_ne, hne, h, List.getElem?_append_left h]

/-- Witness for C10 at a one-frame store. -/
theorem claim_C10_witness :
    0 < ([[(⟨"zero_coupon", .num 91, .num 97.5, .na, .na⟩ : PreRow)]] : Store).length ∧
      ((bootstrap_preprocess [[⟨"zero_coupon", .num 91, .num 97.5, .na, .na⟩]] 0).1).getD 0 [] =
        ([[(⟨"zero_coupon", .num 91, .num 97.5, .na, .na⟩ : PreRow)]] : Store).getD 0 [] :=
  ⟨by decide,
    claim_C10_caller_frame_unchanged [[⟨"zero_coupon", .num 91, .num 97.5, .na, .na⟩]] 0
      (by decide)⟩

end Banxico

